import Mathlib

/-!
# Verification of the LFRipping autoloader core (`do_rip_ddrescue.py`)

This file gives a shallow embedding of the robot/autoloader core of the
repository and proves or refutes the frozen claims about it.

Layers of the embedding:

* Python string primitives (`pyStartsWith`, `pyIn`, `pySlice`, `pyInt?`)
  model the exact string operations the source uses
  (`str.startswith`, the `in` substring test, slicing, `int(...)`).
* `calculate_disc_count` is the pure bin-inventory function, line for line.
* `send_command` is the transport-level retry loop of the source function of
  the same name, run against an oracle: the list of successive decoded,
  stripped responses the serial line would deliver.  Fuel bounds the
  unbounded `while True` loop.
* `Robot`/`exchange` is the logical layer: one `exchange` models one
  *completed* `send_command` call (the lemma `send_command_ready_returns`
  links the layers: under a ready status the transport loop returns the
  next command response).  On top of it sit `recalibrate_bin`,
  `query_bin_inventory`, `load_disc_to_drive`, `unload_disc_to_bin`,
  `setup_bays` and one iteration of the `process_drive` worker loop.
* `read_dvd` models the three-phase ddrescue sequence; its Lean type
  records the central fact that the Python function catches every
  exception internally.
* The final section models the concurrency structure of `process_drive`
  (robot work under `with lock:`, imaging outside it) as an interleaving
  transition system and proves the mutual-exclusion property.
-/

/-! ## Python string primitives -/

/-- List-level prefix test (`Char` lists), used to model `str.startswith`. -/
def listIsPrefixOf : List Char → List Char → Bool
  | [], _ => true
  | _ :: _, [] => false
  | a :: as, b :: bs => a == b && listIsPrefixOf as bs

/-- List-level infix test, used to model Python's `needle in hay`. -/
def listIsInfixOf (needle : List Char) : List Char → Bool
  | [] => listIsPrefixOf needle []
  | b :: bs => listIsPrefixOf needle (b :: bs) || listIsInfixOf needle bs

/-- Python `s.startswith(pre)`. -/
def pyStartsWith (s pre : String) : Bool :=
  listIsPrefixOf pre.toList s.toList

/-- Python `needle in hay` (substring containment). -/
def pyIn (needle hay : String) : Bool :=
  listIsInfixOf needle.toList hay.toList

/-- Python slice `s[a:b]` (as a character list; indices clamped like Python). -/
def pySlice (s : String) (a b : Nat) : List Char :=
  (s.toList.drop a).take (b - a)

/-- Numeric value of a digit string, most significant first. -/
def digitsVal (cs : List Char) : Nat :=
  cs.foldl (fun n c => 10 * n + (c.toNat - 48)) 0

/-- Strip leading and trailing whitespace from a character list. -/
def stripWS (cs : List Char) : List Char :=
  ((cs.dropWhile Char.isWhitespace).reverse.dropWhile Char.isWhitespace).reverse

/-- Python `int(s)` on a character list: strip whitespace, optional sign,
then a nonempty run of decimal digits; anything else raises `ValueError`,
modelled as `none`.  (Python additionally allows underscore group
separators and unicode digits, which never occur in this protocol.) -/
def pyInt? (cs : List Char) : Option Int :=
  match stripWS cs with
  | [] => none
  | c :: rest =>
    if c = '+' then
      if !rest.isEmpty && rest.all Char.isDigit then some (digitsVal rest) else none
    else if c = '-' then
      if !rest.isEmpty && rest.all Char.isDigit then some (-(digitsVal rest : Int)) else none
    else
      if (c :: rest).all Char.isDigit then some (digitsVal (c :: rest)) else none

/-! ## Configuration constants (module header of `do_rip_ddrescue.py`) -/

/-- `INPUT_BINS = [1, 2]`. -/
def INPUT_BINS : List Nat := [1, 2]

/-- `OUTPUT_BINS = [3, 4]`. -/
def OUTPUT_BINS : List Nat := [3, 4]

/-- `BIN_CAPACITY = 108`. -/
def BIN_CAPACITY : Int := 108

/-- `DISC_HEIGHT = 12`. -/
def DISC_HEIGHT : Int := 12

/-- `DEFAULT_OFFSET = 2304`. -/
def DEFAULT_OFFSET : Int := 2304

/-! ## Bin inventory model -/

/-- A dynamically typed Python value as returned by `calculate_disc_count`
and `query_bin_inventory`: either an `int` or a `str`. -/
inductive PyVal where
  | int (n : Int)
  | str (s : String)
deriving DecidableEq, Repr

/-- `calculate_disc_count(response)` (lines 94-107 of `do_rip_ddrescue.py`):
empty-bin sentinel → `0`; error sentinel → the string
`'Error code in bin count'`; otherwise parse `response[6:10]` as the offset
and return `BIN_CAPACITY - max(0, (offset - DEFAULT_OFFSET) // DISC_HEIGHT)`;
a `ValueError` from `int(...)` is caught and `"unknown"` returned.
Python `//` on ints is floor division, i.e. `Int.fdiv`. -/
def calculate_disc_count (response : String) : PyVal :=
  if pyStartsWith response "+!f01036000C" then
    .int 0
  else if pyStartsWith response "+!f01365534C" then
    .str "Error code in bin count"
  else
    match pyInt? (pySlice response 6 10) with
    | some offset => .int (BIN_CAPACITY - max 0 (Int.fdiv (offset - DEFAULT_OFFSET) DISC_HEIGHT))
    | none => .str "unknown"

/-! ## Command/Status Engine: the transport-level retry loop

`send_command(serial_conn, command)` (lines 32-79).  The serial line is
modelled by an oracle: the list of successive decoded (`ESC` → `+`,
`EOT` → `=`) and stripped responses that `read_until` delivers.  The
command-response read loops until a nonempty response arrives
(`if response: break`), so `readNonEmpty` drops empty entries; the status
read is a single read (an empty status string falls into the `else`
branch).  `fuel` bounds the unbounded outer `while True`.  The function
also records every command text written to the port, in order. -/

/-- The fixed status probe command `!e1C`. -/
def statusProbeCmd : String := "!e1C"

/-- Status response: ready, `+!e1000000C`. -/
def readyStatus : String := "+!e1000000C"

/-- Status response: bay door issue, `+!e1005000C`. -/
def bayDoorStatus : String := "+!e1005000C"

/-- Status response: door opened, `+!e1006000C`. -/
def doorOpenStatus : String := "+!e1006000C"

/-- The blocking `while True: response = read_until(...); if response: break`
loop: consume oracle entries until a nonempty one; `none` when the oracle
is exhausted (the Python loop would block forever). -/
def readNonEmpty : List String → Option (String × List String)
  | [] => none
  | r :: rest => if r = "" then readNonEmpty rest else some (r, rest)

/-- The body of `send_command`, carrying the `recalibration_needed` flag and
the write trace.  Returns `(original command response, unread oracle,
writes)`.  Where the source hits the ready state with the fault flag set it
logs `"Ready state detected. Recalibrating..."` but the recalibration call
itself (`setup_bays(serial_conn)`) is commented out; it only clears the
flag and retries the command, which is exactly what is modelled here. -/
def send_command (fuel : Nat) (command : String) (oracle : List String)
    (recalibration_needed : Bool) (writes : List String) :
    Option (String × List String × List String) :=
  match fuel with
  | 0 => none
  | fuel + 1 =>
    match readNonEmpty oracle with
    | none => none
    | some (response, o1) =>
      -- command written, response read; now the status check `!e1C`
      let ws := writes ++ [command, statusProbeCmd]
      match o1 with
      | [] => none
      | status_response :: o2 =>
        if status_response = readyStatus then
          if recalibration_needed then
            -- "Recalibrating..." logged; `setup_bays` call commented out;
            -- clear the flag and retry it all now that the error was cleared
            send_command fuel command o2 false ws
          else
            some (response, o2, ws)  -- return the original command response
        else if status_response = bayDoorStatus then
          -- bay door issue: (edge-triggered log,) set flag, retry
          send_command fuel command o2 true ws
        else if status_response = doorOpenStatus then
          -- door opened: (edge-triggered log,) set flag, retry
          send_command fuel command o2 true ws
        else
          -- unexpected status: treated as success
          some (response, o2, ws)

/-! ## Logical layer: one `exchange` per completed `send_command` call

`Robot` is the shared serial session seen at the granularity of whole
command/response exchanges: `pending` is the oracle of responses that
successive `send_command` calls will return, `sent` the trace of commands
issued so far.  The lemma `send_command_ready_returns` below justifies
the abstraction: a `send_command` whose status probe answers ready (with
no pending fault) returns precisely the next command response. -/

structure Robot where
  pending : List String
  sent : List String
deriving DecidableEq, Repr

/-- A Python exception (or a read that blocks forever because no framed
response arrives, which the source would spin on). -/
inductive PyErr where
  | typeError
  | blocked
deriving DecidableEq, Repr

/-- One completed `send_command(serial_conn, cmd)` call at the logical
layer: deliver the next pending response and record the command. -/
def exchange (cmd : String) (st : Robot) : Except PyErr (String × Robot) :=
  match st.pending with
  | [] => .error .blocked
  | r :: rest => .ok (r, ⟨rest, st.sent ++ [cmd]⟩)

/-- Bin probe command `f"!f020{bin_num-1}C"`. -/
def binProbeCmd (binNum : Nat) : String := "!f020" ++ toString (binNum - 1) ++ "C"

/-- Bin pick (grab) command `f"!f120{bin_num-1}2C"`. -/
def binPickCmd (binNum : Nat) : String := "!f120" ++ toString (binNum - 1) ++ "2C"

/-- Bin place command `f"!f120{bin_num-1}1C"`. -/
def binPlaceCmd (binNum : Nat) : String := "!f120" ++ toString (binNum - 1) ++ "1C"

/-- Move-to-drive command `f"!f124{drive_number}0C"`. -/
def moveToDriveCmd (driveNumber : Nat) : String := "!f124" ++ toString driveNumber ++ "0C"

/-- Drive place command `f"!f124{drive_number}1C"`. -/
def drivePlaceCmd (driveNumber : Nat) : String := "!f124" ++ toString driveNumber ++ "1C"

/-- Drive pick command `f"!f124{drive_number}2C"`. -/
def drivePickCmd (driveNumber : Nat) : String := "!f124" ++ toString driveNumber ++ "2C"

/-- `recalibrate_bin(serial_conn, bin_num)` (lines 109-125): grab; if a
disc was picked up (`"+!f11C" in response`) place it back; an empty bin
(`"+!f10C"`) or an unexpected response is only logged. -/
def recalibrate_bin (binNum : Nat) (st : Robot) : Except PyErr Robot :=
  match exchange (binPickCmd binNum) st with
  | .error e => .error e
  | .ok (response, st) =>
    if pyIn "+!f11C" response then
      match exchange (binPlaceCmd binNum) st with
      | .error e => .error e
      | .ok (_, st) => .ok st
    else if pyIn "+!f10C" response then
      .ok st  -- bin is empty: log only
    else
      .ok st  -- unexpected response: log only

/-- `query_bin_inventory(serial_conn, bin_num)` (lines 127-146): probe the
bin; if the response contains the error sentinel, recalibrate once and
re-probe once; then the empty sentinel yields `0`, anything else goes
through `calculate_disc_count`.  (The source's `except ValueError` around
the final call is dead code: `calculate_disc_count` already catches it.) -/
def query_bin_inventory (binNum : Nat) (st : Robot) : Except PyErr (PyVal × Robot) :=
  match exchange (binProbeCmd binNum) st with
  | .error e => .error e
  | .ok (response, st) =>
    let next : Except PyErr (String × Robot) :=
      if pyIn "+!f01365534C" response then
        match recalibrate_bin binNum st with
        | .error e => .error e
        | .ok st => exchange (binProbeCmd binNum) st
      else
        .ok (response, st)
    match next with
    | .error e => .error e
    | .ok (response, st) =>
      if pyIn "+!f01036000C" response then
        .ok (.int 0, st)
      else
        .ok (calculate_disc_count response, st)

/-- Python `value > 0` on a dynamically typed value: comparing a `str`
with an `int` raises `TypeError`. -/
def pyGtZero (v : PyVal) : Except PyErr Bool :=
  match v with
  | .int n => .ok (decide (0 < n))
  | .str _ => .error .typeError

/-- Python `value < BIN_CAPACITY` on a dynamically typed value. -/
def pyLtCapacity (v : PyVal) : Except PyErr Bool :=
  match v with
  | .int n => .ok (decide (n < BIN_CAPACITY))
  | .str _ => .error .typeError

/-- The scan loop of `load_disc_to_drive` (lines 150-155):
`for bin_num in INPUT_BINS: if query_bin_inventory(serial_conn, bin_num) > 0:
input_bin = bin_num; break`.  Returns the first bin whose inventory compares
greater than zero, or `none`. -/
def scanInputBins : List Nat → Robot → Except PyErr (Option Nat × Robot)
  | [], st => .ok (none, st)
  | b :: bs, st =>
    match query_bin_inventory b st with
    | .error e => .error e
    | .ok (inv, st) =>
      match pyGtZero inv with
      | .error e => .error e
      | .ok true => .ok (some b, st)
      | .ok false => scanInputBins bs st

/-- Python truthiness test `not input_bin` on `None`-or-int: true for
`None` and for `0`.  (`INPUT_BINS` holds only 1 and 2, so here it is in
effect a `None` test.) -/
def pyFalsy : Option Nat → Bool
  | none => true
  | some n => n == 0

/-- `load_disc_to_drive(serial_conn, drive_number)` (lines 148-192): find
the first input bin with stock (`if not input_bin: return False`); grab
from it — a response containing `"+!f10C"` returns `False`, one containing
`"+!f11C"` is merely logged; then move to the drive, open the tray
(`eject`, no serial traffic), place the disc, close the tray, and return
`True`. -/
def load_disc_to_drive (driveNumber : Nat) (st : Robot) : Except PyErr (Bool × Robot) :=
  match scanInputBins INPUT_BINS st with
  | .error e => .error e
  | .ok (inputBin?, st) =>
    if pyFalsy inputBin? then
      .ok (false, st)  -- no discs available in input bins
    else
      match inputBin? with
      | none => .ok (false, st)  -- unreachable: pyFalsy already true on none
      | some inputBin =>
        match exchange (binPickCmd inputBin) st with
        | .error e => .error e
        | .ok (response, st) =>
          if pyIn "+!f10C" response then
            .ok (false, st)  -- no disc available in this bin
          else
            -- ("+!f11C" in response merely logs "Disc picked up")
            match exchange (moveToDriveCmd driveNumber) st with
            | .error e => .error e
            | .ok (_, st) =>
              -- open_drive: `eject` subprocess, no robot traffic
              match exchange (drivePlaceCmd driveNumber) st with
              | .error e => .error e
              | .ok (_, st) =>
                -- close_drive: `eject -t` subprocess, no robot traffic
                .ok (true, st)

/-- The scan loop of `unload_disc_to_bin` (lines 197-202): first output
bin whose inventory compares less than `BIN_CAPACITY`, or `none`. -/
def scanOutputBins : List Nat → Robot → Except PyErr (Option Nat × Robot)
  | [], st => .ok (none, st)
  | b :: bs, st =>
    match query_bin_inventory b st with
    | .error e => .error e
    | .ok (inv, st) =>
      match pyLtCapacity inv with
      | .error e => .error e
      | .ok true => .ok (some b, st)
      | .ok false => scanOutputBins bs st

/-- `unload_disc_to_bin(serial_conn, drive_number)` (lines 194-235): find
the first output bin with room (`if target_bin is None: return False`);
move to the drive, open the tray, grab the disc, close the tray, place it
into the target bin, and return `True`. -/
def unload_disc_to_bin (driveNumber : Nat) (st : Robot) : Except PyErr (Bool × Robot) :=
  match scanOutputBins OUTPUT_BINS st with
  | .error e => .error e
  | .ok (targetBin?, st) =>
    match targetBin? with
    | none => .ok (false, st)  -- all output bins are full
    | some targetBin =>
      match exchange (moveToDriveCmd driveNumber) st with
      | .error e => .error e
      | .ok (_, st) =>
        -- open_drive
        match exchange (drivePickCmd driveNumber) st with
        | .error e => .error e
        | .ok (_, st) =>
          -- close_drive
          match exchange (binPlaceCmd targetBin) st with
          | .error e => .error e
          | .ok (_, st) => .ok (true, st)

/-! ## Imaging pipeline: `read_dvd` (lines 306-361) -/

/-- What one call of `read_dvd` did: which ddrescue phases were started
(1-based, in order) and whether the surrounding `except Exception` clause
logged an error.  The Lean return type of `read_dvd` being this plain
structure (not an `Except`) mirrors the central fact that the Python
function catches every exception internally and returns normally. -/
structure ReadDvdResult where
  phasesRun : List Nat
  errorLogged : Bool
deriving DecidableEq, Repr

/-- The `for i, step in enumerate(steps, 1)` loop (lines 345-356): run the
phases in order from index `i`; on a nonzero exit raise
`CalledProcessError`, aborting the remaining phases.  `exits` is the
oracle of process exit codes, one per phase in order.  Returns the phases
started and whether the error was raised. -/
def runPhasesFrom (i : Nat) : List Int → List Nat → List Nat × Bool
  | [], ran => (ran, false)
  | e :: rest, ran =>
    if e ≠ 0 then (ran ++ [i], true)
    else runPhasesFrom (i + 1) rest (ran ++ [i])

/-- `read_dvd(drive_number, destination_path, output_queue)`: wait for
media (`mediaPresent` abstracts the `blkid` retry loop; on timeout a
`TimeoutError` is raised); then run the three-phase ddrescue sequence.
The whole body sits in `try: ... except Exception as e: log_message(...)`,
so no exception ever escapes — any raise merely sets `errorLogged`. -/
def read_dvd (mediaPresent : Bool) (exits : List Int) : ReadDvdResult :=
  if !mediaPresent then
    { phasesRun := [], errorLogged := true }  -- TimeoutError, caught and logged
  else
    let (ran, raised) := runPhasesFrom 1 exits []
    { phasesRun := ran, errorLogged := raised }

/-! ## Drive Orchestrator: one iteration of `process_drive` (lines 363-381) -/

/-- How one iteration of the `while True` worker loop ended. -/
inductive IterOutcome where
  | continued      -- loop repeats
  | stopNoInput    -- load returned False: "No discs left in input bins", break
  | stopNoOutput   -- unload returned False: "Output bins are full", break
  | stopError (e : PyErr)  -- `except Exception`: logged, break
  | hung           -- a serial read blocked forever
deriving DecidableEq, Repr

/-- The externally visible steps of one iteration. -/
inductive WorkerAction where
  | loadStep
  | imagePhase (n : Nat)
  | unloadStep
deriving DecidableEq, Repr

/-- One iteration of `process_drive`'s loop: `with lock: load...`;
`read_dvd(...)` (outside the lock, and it cannot raise); `with lock:
unload...`.  A Python exception from load or unload is caught by the
`except Exception` clause, logged, and breaks the loop. -/
def process_drive_step (driveNumber : Nat) (st : Robot) (mediaPresent : Bool)
    (exits : List Int) : (IterOutcome × List WorkerAction) × Robot :=
  match load_disc_to_drive driveNumber st with
  | .error .blocked => ((.hung, [.loadStep]), st)
  | .error e => ((.stopError e, [.loadStep]), st)
  | .ok (false, st) => ((.stopNoInput, [.loadStep]), st)
  | .ok (true, st) =>
    let rd := read_dvd mediaPresent exits
    let acts := .loadStep :: rd.phasesRun.map WorkerAction.imagePhase
    match unload_disc_to_bin driveNumber st with
    | .error .blocked => ((.hung, acts ++ [.unloadStep]), st)
    | .error e => ((.stopError e, acts ++ [.unloadStep]), st)
    | .ok (false, st) => ((.stopNoOutput, acts ++ [.unloadStep]), st)
    | .ok (true, st) => ((.continued, acts ++ [.unloadStep]), st)

/-! ## `setup_bays` (lines 81-92) -/

/-- A Python call through a name: supplying a number of positional
arguments different from the function's arity raises `TypeError` at call
time, before the body runs. -/
def pyArityCheck (arity given : Nat) : Except PyErr Unit :=
  if given = arity then .ok () else .error .typeError

/-- The loop `for bin_num in range(1,5): recalibrate_bin(bin_num)`
(lines 89-90).  `recalibrate_bin` is defined with two parameters
`(serial_conn, bin_num)` but is called with the single argument
`bin_num`, so the call raises `TypeError` before any recalibration work;
the loop body after the arity check is therefore unreachable. -/
def setup_bays_loop : List Nat → Robot → Except PyErr Robot
  | [], st => .ok st
  | binNum :: rest, st =>
    match pyArityCheck 2 1 with
    | .error e => .error e
    | .ok _ =>
      -- unreachable: were the call well-formed it would recalibrate binNum
      match recalibrate_bin binNum st with
      | .error e => .error e
      | .ok st => setup_bays_loop rest st

/-- `setup_bays(serial_conn)` (lines 81-92): an initial
`send_command(serial_conn, "!e1C")`, then the recalibration loop over
bins 1-4 (whose first iteration raises `TypeError`). -/
def setup_bays (st : Robot) : Except PyErr Robot :=
  match exchange "!e1C" st with
  | .error e => .error e
  | .ok (_, st) => setup_bays_loop [1, 2, 3, 4] st

/-! ## Concurrency model of `process_drive` under the shared mutex

`main` starts one `process_drive` process per drive; all of them share the
single `multiprocessing.Lock` and the single serial session.  Each worker
iteration is `with lock: load...` / imaging (no robot traffic) /
`with lock: unload...`.  We model each worker as the sequence of atomic
actions it performs — acquiring and releasing the one lock, robot
command/response exchanges, and purely local work — and interleave the
workers with a small-step scheduler.  The mutual-exclusion theorem then
states that two different workers' robot exchanges are always separated
by a lock release. -/

/-- An atomic action of a drive worker. -/
inductive RAct where
  | acquire
  | release
  | robotOp (cmd : String)  -- one command/response exchange on the serial line
  | localOp                 -- robot-free work (the imaging pipeline)
deriving DecidableEq, Repr

/-- A `with lock:` block containing the given robot exchanges. -/
def lockedOps (cmds : List String) : List RAct :=
  RAct.acquire :: (cmds.map RAct.robotOp ++ [RAct.release])

/-- One iteration of `process_drive`'s loop: the load block under the
lock, imaging outside it, the unload block under the lock.  `loadCmds`
and `unloadCmds` are the robot commands that iteration's load and unload
happen to issue. -/
def workerIter (loadCmds unloadCmds : List String) : List RAct :=
  lockedOps loadCmds ++ [RAct.localOp] ++ lockedOps unloadCmds

/-- A whole `process_drive` worker: the concatenation of its loop
iterations. -/
def workerProgram : List (List String × List String) → List RAct
  | [] => []
  | (l, u) :: rest => workerIter l u ++ workerProgram rest

/-- Global configuration: each worker's remaining program, and the current
owner of the single shared lock. -/
structure RConfig (n : Nat) where
  progs : Fin n → List RAct
  owner : Option (Fin n)

/-- Interleaving small-step semantics.  `acquire` needs the lock to be
free; `release` needs the releasing worker to own it (the `with` statement
guarantees this); robot and local actions are not themselves guarded —
that robot actions in fact only happen while holding the lock is the
property proved below, not an assumption of the semantics. -/
inductive RStep {n : Nat} : RConfig n → Fin n × RAct → RConfig n → Prop where
  | acquire (c : RConfig n) (i : Fin n) (rest : List RAct) :
      c.progs i = RAct.acquire :: rest → c.owner = none →
      RStep c (i, RAct.acquire) ⟨Function.update c.progs i rest, some i⟩
  | release (c : RConfig n) (i : Fin n) (rest : List RAct) :
      c.progs i = RAct.release :: rest → c.owner = some i →
      RStep c (i, RAct.release) ⟨Function.update c.progs i rest, none⟩
  | robot (c : RConfig n) (i : Fin n) (cmd : String) (rest : List RAct) :
      c.progs i = RAct.robotOp cmd :: rest →
      RStep c (i, RAct.robotOp cmd) ⟨Function.update c.progs i rest, c.owner⟩
  | localStep (c : RConfig n) (i : Fin n) (rest : List RAct) :
      c.progs i = RAct.localOp :: rest →
      RStep c (i, RAct.localOp) ⟨Function.update c.progs i rest, c.owner⟩

/-- A finite execution: the trace of (worker, action) steps taken. -/
inductive RExec {n : Nat} : RConfig n → List (Fin n × RAct) → RConfig n → Prop where
  | nil (c : RConfig n) : RExec c [] c
  | cons {c c' c'' : RConfig n} {e : Fin n × RAct} {tr : List (Fin n × RAct)} :
      RStep c e c' → RExec c' tr c'' → RExec c (e :: tr) c''

/-- `WellLocked h p`: program residue `p` is consistent with currently
holding (`h = true`) or not holding (`h = false`) the lock, and performs
robot actions only while holding it. -/
inductive WellLocked : Bool → List RAct → Prop where
  | nil : WellLocked false []
  | acq {p : List RAct} : WellLocked true p → WellLocked false (RAct.acquire :: p)
  | rel {p : List RAct} : WellLocked false p → WellLocked true (RAct.release :: p)
  | rob {p : List RAct} (cmd : String) : WellLocked true p → WellLocked true (RAct.robotOp cmd :: p)
  | loc {h : Bool} {p : List RAct} : WellLocked h p → WellLocked h (RAct.localOp :: p)

/-- The global invariant: every worker's residue is consistent with
whether that worker currently owns the lock. -/
def LockInv {n : Nat} (c : RConfig n) : Prop :=
  ∀ i : Fin n, WellLocked (decide (c.owner = some i)) (c.progs i)

/-- A concrete two-worker schedule (worker 0 runs one full iteration, then
worker 1 does), used to exhibit a run of the scheduler. -/
def demoTrace : List (Fin 2 × RAct) :=
  [(0, RAct.acquire), (0, RAct.robotOp "a"), (0, RAct.release), (0, RAct.localOp),
   (0, RAct.acquire), (0, RAct.release),
   (1, RAct.acquire), (1, RAct.robotOp "a"), (1, RAct.release), (1, RAct.localOp),
   (1, RAct.acquire), (1, RAct.release)]

/-- A locked robot-exchange block followed by a well-locked continuation is
well locked (interior of `lockedOps`). -/
theorem wellLocked_robots (cmds : List String) {q : List RAct} (hq : WellLocked false q) :
    WellLocked true (cmds.map RAct.robotOp ++ [RAct.release] ++ q) := by
  induction cmds with
  | nil => exact WellLocked.rel hq
  | cons c cs ih => exact WellLocked.rob c ih

/-- A `with lock:` block followed by a well-locked continuation is well
locked. -/
theorem wellLocked_lockedOps (cmds : List String) {q : List RAct} (hq : WellLocked false q) :
    WellLocked false (lockedOps cmds ++ q) :=
  WellLocked.acq (by simpa [List.append_assoc] using wellLocked_robots cmds hq)

/-- `process_drive` workers only touch the robot inside `with lock:`
blocks: every worker program is well locked. -/
theorem wellLocked_workerProgram (plan : List (List String × List String)) :
    WellLocked false (workerProgram plan) := by
  induction plan with
  | nil => exact WellLocked.nil
  | cons iter rest ih =>
    obtain ⟨l, u⟩ := iter
    show WellLocked false (workerIter l u ++ workerProgram rest)
    have h1 : WellLocked false (lockedOps u ++ workerProgram rest) :=
      wellLocked_lockedOps u ih
    have h2 : WellLocked false ([RAct.localOp] ++ (lockedOps u ++ workerProgram rest)) :=
      WellLocked.loc h1
    have h3 := wellLocked_lockedOps l h2
    simpa [workerIter, List.append_assoc] using h3

/-- A step of the scheduler preserves the lock invariant. -/
theorem lockInv_step {n : Nat} {c c' : RConfig n} {e : Fin n × RAct}
    (hs : RStep c e c') (hinv : LockInv c) : LockInv c' := by
  cases hs with
  | acquire i rest hp ho =>
    intro j
    by_cases hji : j = i
    · subst hji
      have hj := hinv j
      rw [hp, ho] at hj
      rw [show decide ((none : Option (Fin n)) = some j) = false from by simp] at hj
      cases hj with
      | acq h =>
        show WellLocked (decide ((some j : Option (Fin n)) = some j)) (Function.update c.progs j rest j)
        rw [Function.update_same, show decide ((some j : Option (Fin n)) = some j) = true from by simp]
        exact h
    · have hj := hinv j
      rw [ho] at hj
      rw [show decide ((none : Option (Fin n)) = some j) = false from by simp] at hj
      show WellLocked (decide ((some i : Option (Fin n)) = some j)) (Function.update c.progs i rest j)
      rw [Function.update_noteq hji,
        show decide ((some i : Option (Fin n)) = some j) = false from
          decide_eq_false (by simpa using Ne.symm hji)]
      exact hj
  | release i rest hp ho =>
    intro j
    by_cases hji : j = i
    · subst hji
      have hj := hinv j
      rw [hp, ho] at hj
      rw [show decide ((some j : Option (Fin n)) = some j) = true from by simp] at hj
      cases hj with
      | rel h =>
        show WellLocked (decide ((none : Option (Fin n)) = some j)) (Function.update c.progs j rest j)
        rw [Function.update_same, show decide ((none : Option (Fin n)) = some j) = false from by simp]
        exact h
    · have hj := hinv j
      rw [ho] at hj
      rw [show decide ((some i : Option (Fin n)) = some j) = false from
        decide_eq_false (by simpa using Ne.symm hji)] at hj
      show WellLocked (decide ((none : Option (Fin n)) = some j)) (Function.update c.progs i rest j)
      rw [Function.update_noteq hji, show decide ((none : Option (Fin n)) = some j) = false from by simp]
      exact hj
  | robot i cmd rest hp =>
    intro j
    by_cases hji : j = i
    · subst hji
      have hj := hinv j
      rw [hp] at hj
      by_cases hov : c.owner = some j
      · rw [show decide (c.owner = some j) = true from decide_eq_true hov] at hj
        cases hj with
        | rob cmd2 h =>
          show WellLocked (decide (c.owner = some j)) (Function.update c.progs j rest j)
          rw [Function.update_same, show decide (c.owner = some j) = true from decide_eq_true hov]
          exact h
      · rw [show decide (c.owner = some j) = false from decide_eq_false hov] at hj
        exact absurd hj (by intro hh; cases hh)
    · have hj := hinv j
      show WellLocked (decide (c.owner = some j)) (Function.update c.progs i rest j)
      rw [Function.update_noteq hji]
      exact hj
  | localStep i rest hp =>
    intro j
    by_cases hji : j = i
    · subst hji
      have hj := hinv j
      rw [hp] at hj
      show WellLocked (decide (c.owner = some j)) (Function.update c.progs j rest j)
      rw [Function.update_same]
      generalize hb : decide (c.owner = some j) = b at hj ⊢
      cases hj with
      | loc h => exact h
    · have hj := hinv j
      show WellLocked (decide (c.owner = some j)) (Function.update c.progs i rest j)
      rw [Function.update_noteq hji]
      exact hj

/-- In an invariant-satisfying configuration, a robot exchange can only be
stepped by the worker that owns the lock. -/
theorem robot_step_owner {n : Nat} {c c' : RConfig n} {i : Fin n} {cmd : String}
    (hs : RStep c (i, RAct.robotOp cmd) c') (hinv : LockInv c) : c.owner = some i := by
  cases hs with
  | robot i2 cmd2 rest hp =>
    have hj := hinv i
    rw [hp] at hj
    by_cases hov : c.owner = some i
    · exact hov
    · rw [show decide (c.owner = some i) = false from decide_eq_false hov] at hj
      exact absurd hj (by intro hh; cases hh)

/-- While worker `i` owns the lock, any later robot exchange by a
different worker is preceded by a `release` from `i`. -/
theorem release_before_foreign_robot {n : Nat} {c cf : RConfig n}
    {tr : List (Fin n × RAct)} (hex : RExec c tr cf) :
    ∀ {i : Fin n}, LockInv c → c.owner = some i →
    ∀ {m : Nat} {j : Fin n} {cmd : String},
      tr.get? m = some (j, RAct.robotOp cmd) → j ≠ i →
      ∃ k, k < m ∧ tr.get? k = some (i, RAct.release) := by
  induction hex with
  | nil c => intro i _ _ m j cmd hm; simp at hm
  | @cons c c' c'' e tr hstep _ ih =>
    intro i hinv howner m j cmd hm hji
    match m with
    | 0 =>
      simp only [List.get?_cons_zero, Option.some.injEq] at hm
      subst hm
      exact absurd (Option.some.inj ((robot_step_owner hstep hinv).symm.trans howner)) hji
    | m' + 1 =>
      simp only [List.get?_cons_succ] at hm
      have hinv' := lockInv_step hstep hinv
      cases hstep with
      | acquire i0 rest hp ho => rw [ho] at howner; cases howner
      | release i0 rest hp ho =>
        refine ⟨0, Nat.succ_pos m', ?_⟩
        rw [ho] at howner
        have : i0 = i := Option.some.inj howner
        subst this
        rfl
      | robot i0 cmd0 rest hp =>
        obtain ⟨k, hk, hget⟩ := ih hinv' howner hm hji
        exact ⟨k + 1, Nat.succ_lt_succ hk, hget⟩
      | localStep i0 rest hp =>
        obtain ⟨k, hk, hget⟩ := ih hinv' howner hm hji
        exact ⟨k + 1, Nat.succ_lt_succ hk, hget⟩

/-- Mutual exclusion along any execution from an invariant-satisfying
configuration: robot exchanges of two different workers are separated by a
lock release of the first. -/
theorem robot_ops_separated {n : Nat} {c0 cf : RConfig n}
    {tr : List (Fin n × RAct)} (hex : RExec c0 tr cf) :
    LockInv c0 →
    ∀ {p q : Nat} {i j : Fin n} {cp cq : String},
      p < q → tr.get? p = some (i, RAct.robotOp cp) →
      tr.get? q = some (j, RAct.robotOp cq) → j ≠ i →
      ∃ k, p < k ∧ k < q ∧ tr.get? k = some (i, RAct.release) := by
  induction hex with
  | nil c => intro _ p q i j cp cq _ hp; simp at hp
  | @cons c c' c'' e tr hstep _ ih =>
    intro hinv p q i j cp cq hpq hp hq hji
    have hinv' := lockInv_step hstep hinv
    match p, q with
    | 0, q' + 1 =>
      simp only [List.get?_cons_zero, Option.some.injEq] at hp
      subst hp
      simp only [List.get?_cons_succ] at hq
      have howner : c.owner = some i := robot_step_owner hstep hinv
      have howner' : c'.owner = some i := by
        cases hstep with
        | robot i2 cmd2 rest hp0 => exact howner
      obtain ⟨k, hk, hget⟩ := release_before_foreign_robot ‹RExec c' tr c''› hinv' howner' hq hji
      exact ⟨k + 1, Nat.succ_pos k, Nat.succ_lt_succ hk, hget⟩
    | p' + 1, q' + 1 =>
      simp only [List.get?_cons_succ] at hp hq
      obtain ⟨k, hk1, hk2, hget⟩ := ih hinv' (Nat.lt_of_succ_lt_succ hpq) hp hq hji
      exact ⟨k + 1, Nat.succ_lt_succ hk1, Nat.succ_lt_succ hk2, hget⟩


/-! ## Helper lemmas about the bin-inventory function -/

/-- On a non-sentinel response whose offset slice parses,
`calculate_disc_count` computes the linear formula. -/
theorem calc_count_of_parse {r : String} {o : Int}
    (h1 : pyStartsWith r "+!f01036000C" = false)
    (h2 : pyStartsWith r "+!f01365534C" = false)
    (hp : pyInt? (pySlice r 6 10) = some o) :
    calculate_disc_count r
      = .int (BIN_CAPACITY - max 0 (Int.fdiv (o - DEFAULT_OFFSET) DISC_HEIGHT)) := by
  simp only [calculate_disc_count, h1, h2, hp, Bool.false_eq_true, if_false]

/-- Flooring division by the (positive) disc height is monotone. -/
theorem fdiv_height_mono {a b : Int} (h : a ≤ b) :
    Int.fdiv a DISC_HEIGHT ≤ Int.fdiv b DISC_HEIGHT := by
  rw [Int.fdiv_eq_ediv _ (by norm_num [DISC_HEIGHT]),
    Int.fdiv_eq_ediv _ (by norm_num [DISC_HEIGHT])]
  exact Int.ediv_le_ediv (by norm_num [DISC_HEIGHT]) h

/-- Every integer `calculate_disc_count` produces is at most the bin
capacity. -/
theorem calc_count_le_capacity {r : String} {n : Int}
    (h : calculate_disc_count r = .int n) : n ≤ BIN_CAPACITY := by
  unfold calculate_disc_count at h
  split at h
  · cases h; norm_num [BIN_CAPACITY]
  · split at h
    · cases h
    · split at h
      · rename_i o ho
        cases h
        have h0 : (0 : Int) ≤ max 0 (Int.fdiv (o - DEFAULT_OFFSET) DISC_HEIGHT) := le_max_left 0 _
        omega
      · cases h

/-! ## C1: range and worked examples of `calculate_disc_count` -/

/-- C1 (amended): on a non-sentinel response whose offset slice parses as
`o`, `calculate_disc_count` returns an integer that is at most
`BIN_CAPACITY`, and that integer is nonnegative provided
`o ≤ DEFAULT_OFFSET + BIN_CAPACITY * DISC_HEIGHT + (DISC_HEIGHT - 1) = 3611`;
the worked examples give `2304 → 108`, `2316 → 107`, `3600 → 0`, and
`3700 → -8` — beyond the zero-crossing the code does **not** clamp at `0`
(there is no lower clamp in the source). -/
theorem claim1_count_at_most_capacity_not_clamped_below :
    (∀ (r : String) (o n : Int),
      pyStartsWith r "+!f01036000C" = false →
      pyStartsWith r "+!f01365534C" = false →
      pyInt? (pySlice r 6 10) = some o →
      calculate_disc_count r = .int n →
      n ≤ BIN_CAPACITY ∧ (o ≤ 3611 → 0 ≤ n)) ∧
    calculate_disc_count "+!f0102304000C" = .int 108 ∧
    calculate_disc_count "+!f0102316000C" = .int 107 ∧
    calculate_disc_count "+!f0103600000C" = .int 0 ∧
    calculate_disc_count "+!f0103700000C" = .int (-8) := by
  refine ⟨?_, by decide, by decide, by decide, by decide⟩
  intro r o n h1 h2 hp hc
  rw [calc_count_of_parse h1 h2 hp] at hc
  cases hc
  constructor
  · have h0 : (0 : Int) ≤ max 0 (Int.fdiv (o - DEFAULT_OFFSET) DISC_HEIGHT) := le_max_left 0 _
    omega
  · intro ho
    have hd : Int.fdiv (o - DEFAULT_OFFSET) DISC_HEIGHT ≤ Int.fdiv 1307 DISC_HEIGHT :=
      fdiv_height_mono (by norm_num [DEFAULT_OFFSET]; omega)
    have hv : Int.fdiv 1307 DISC_HEIGHT = 108 := by decide
    have hmax : max 0 (Int.fdiv (o - DEFAULT_OFFSET) DISC_HEIGHT) ≤ 108 :=
      max_le (by norm_num) (by omega)
    norm_num [BIN_CAPACITY]
    omega

/-- C1 witness: the universally quantified part of
`claim1_count_at_most_capacity_not_clamped_below` applied to the concrete
offset-2316 response. -/
theorem claim1_witness :
    (107 : Int) ≤ BIN_CAPACITY ∧ ((2316 : Int) ≤ 3611 → (0 : Int) ≤ 107) :=
  claim1_count_at_most_capacity_not_clamped_below.1 "+!f0102316000C" 2316 107
    (by decide) (by decide) (by decide) (by decide)

/-- C1 counterexample: the probe response with offset `3700` yields the
count `-8`, not `0` — the value is negative and lies outside
`[0, BIN_CAPACITY]`, contradicting the claimed clamping. -/
theorem claim1_counterexample :
    calculate_disc_count "+!f0103700000C" = PyVal.int (-8) ∧
    calculate_disc_count "+!f0103700000C" ≠ PyVal.int 0 := by
  decide

/-! ## C8: the count is non-increasing in the offset -/

/-- C8: for two non-sentinel responses whose offset slices parse as
`o1 ≤ o2`, the disc count computed from the second response is at most the
one computed from the first. -/
theorem claim8_count_antitone_in_offset :
    ∀ (r1 r2 : String) (o1 o2 n1 n2 : Int),
      pyStartsWith r1 "+!f01036000C" = false →
      pyStartsWith r1 "+!f01365534C" = false →
      pyStartsWith r2 "+!f01036000C" = false →
      pyStartsWith r2 "+!f01365534C" = false →
      pyInt? (pySlice r1 6 10) = some o1 →
      pyInt? (pySlice r2 6 10) = some o2 →
      o1 ≤ o2 →
      calculate_disc_count r1 = .int n1 →
      calculate_disc_count r2 = .int n2 →
      n2 ≤ n1 := by
  intro r1 r2 o1 o2 n1 n2 h11 h12 h21 h22 hp1 hp2 ho hc1 hc2
  rw [calc_count_of_parse h11 h12 hp1] at hc1
  rw [calc_count_of_parse h21 h22 hp2] at hc2
  cases hc1
  cases hc2
  have hd : Int.fdiv (o1 - DEFAULT_OFFSET) DISC_HEIGHT ≤ Int.fdiv (o2 - DEFAULT_OFFSET) DISC_HEIGHT :=
    fdiv_height_mono (by omega)
  have hm : max 0 (Int.fdiv (o1 - DEFAULT_OFFSET) DISC_HEIGHT)
      ≤ max 0 (Int.fdiv (o2 - DEFAULT_OFFSET) DISC_HEIGHT) :=
    max_le_max le_rfl hd
  omega

/-- C8 witness: `claim8_count_antitone_in_offset` applied to the concrete
offset-2304 and offset-2316 responses (counts 108 and 107). -/
theorem claim8_witness : (107 : Int) ≤ 108 :=
  claim8_count_antitone_in_offset "+!f0102304000C" "+!f0102316000C" 2304 2316 108 107
    (by decide) (by decide) (by decide) (by decide) (by decide) (by decide)
    (by decide) (by decide) (by decide)

/-! ## C2: ready-state behaviour of the Command/Status Engine -/

/-- With no fault flagged, a ready status makes `send_command` return the
command response it just read. -/
theorem send_command_ready_returns (fuel : Nat) (cmd r : String)
    (rest ws : List String) (hr : r ≠ "") :
    send_command (fuel + 1) cmd (r :: readyStatus :: rest) false ws
      = some (r, rest, ws ++ [cmd, statusProbeCmd]) := by
  simp [send_command, readNonEmpty, hr]

/-- With the fault flag set, a ready status clears the flag and restarts
the whole command (no recalibration command is emitted in between). -/
theorem send_command_ready_restarts (fuel : Nat) (cmd r : String)
    (rest ws : List String) (hr : r ≠ "") :
    send_command (fuel + 1) cmd (r :: readyStatus :: rest) true ws
      = send_command fuel cmd rest false (ws ++ [cmd, statusProbeCmd]) := by
  simp [send_command, readNonEmpty, hr]

/-- Every write `send_command` performs is either the caller's command or
the status probe: the engine never writes anything else (in particular no
recalibration pick/place command). -/
theorem send_command_writes (cmd : String) :
    ∀ (fuel : Nat) (oracle : List String) (flag : Bool) (ws0 : List String)
      (r : String) (o ws : List String),
      send_command fuel cmd oracle flag ws0 = some (r, o, ws) →
      ∀ w ∈ ws, w ∈ ws0 ∨ w = cmd ∨ w = statusProbeCmd := by
  intro fuel
  induction fuel with
  | zero => intro oracle flag ws0 r o ws h; simp [send_command] at h
  | succ fuel ih =>
    intro oracle flag ws0 r o ws h
    rw [show send_command (fuel + 1) cmd oracle flag ws0
        = match readNonEmpty oracle with
          | none => none
          | some (response, o1) =>
            match o1 with
            | [] => none
            | status_response :: o2 =>
              if status_response = readyStatus then
                if flag then
                  send_command fuel cmd o2 false (ws0 ++ [cmd, statusProbeCmd])
                else
                  some (response, o2, ws0 ++ [cmd, statusProbeCmd])
              else if status_response = bayDoorStatus then
                send_command fuel cmd o2 true (ws0 ++ [cmd, statusProbeCmd])
              else if status_response = doorOpenStatus then
                send_command fuel cmd o2 true (ws0 ++ [cmd, statusProbeCmd])
              else
                some (response, o2, ws0 ++ [cmd, statusProbeCmd])
      from rfl] at h
    rcases hrd : readNonEmpty oracle with _ | ⟨resp, o1⟩ <;> rw [hrd] at h
    · cases h
    · match o1, h with
      | [], h => cases h
      | s :: o2, h =>
        dsimp only at h
        have key : ∀ w ∈ ws0 ++ [cmd, statusProbeCmd], w ∈ ws0 ∨ w = cmd ∨ w = statusProbeCmd := by
          intro w hw
          rcases List.mem_append.1 hw with hmem | hmem
          · exact Or.inl hmem
          · simp only [List.mem_cons, List.mem_singleton] at hmem
            rcases hmem with h1 | h1 | h1
            · exact Or.inr (Or.inl h1)
            · exact Or.inr (Or.inr h1)
            · cases h1
        have step : ∀ r' o' ws',
            send_command fuel cmd o2 false (ws0 ++ [cmd, statusProbeCmd]) = some (r', o', ws') ∨
            send_command fuel cmd o2 true (ws0 ++ [cmd, statusProbeCmd]) = some (r', o', ws') →
            ∀ w ∈ ws', w ∈ ws0 ∨ w = cmd ∨ w = statusProbeCmd := by
          intro r' o' ws' hcall w hw
          rcases hcall with hcall | hcall <;>
            rcases ih o2 _ _ r' o' ws' hcall w hw with hmem | hmem <;>
            first
              | exact key w hmem
              | exact Or.inr hmem
        by_cases h1 : s = readyStatus
        · rw [if_pos h1] at h
          cases flag with
          | true =>
            rw [if_pos rfl] at h
            exact step r o ws (Or.inl h)
          | false =>
            rw [if_neg (by simp)] at h
            cases h
            exact key
        · rw [if_neg h1] at h
          by_cases h2 : s = bayDoorStatus
          · rw [if_pos h2] at h
            exact step r o ws (Or.inr h)
          · rw [if_neg h2] at h
            by_cases h3 : s = doorOpenStatus
            · rw [if_pos h3] at h
              exact step r o ws (Or.inr h)
            · rw [if_neg h3] at h
              cases h
              exact key

/-- C2 (amended): when the status probe returns the exact ready code and
the fault flag was set earlier in the call, `send_command` clears the flag
and restarts the whole command from step 1 — but it does **not** invoke the
Recalibration Routine (the `setup_bays` call at that point is commented
out): every byte it ever writes is the caller's command or the status
probe.  When ready arrives with no fault flagged it returns the original
command response of the current round. -/
theorem claim2_ready_clears_flag_and_restarts_without_recalibration :
    (∀ (fuel : Nat) (cmd r : String) (rest ws : List String), r ≠ "" →
      send_command (fuel + 1) cmd (r :: readyStatus :: rest) true ws
        = send_command fuel cmd rest false (ws ++ [cmd, statusProbeCmd])) ∧
    (∀ (fuel : Nat) (cmd r : String) (rest ws : List String), r ≠ "" →
      send_command (fuel + 1) cmd (r :: readyStatus :: rest) false ws
        = some (r, rest, ws ++ [cmd, statusProbeCmd])) ∧
    (∀ (fuel : Nat) (cmd : String) (oracle : List String) (flag : Bool)
       (r : String) (o ws : List String),
      send_command fuel cmd oracle flag [] = some (r, o, ws) →
      ∀ w ∈ ws, w = cmd ∨ w = statusProbeCmd) := by
  refine ⟨send_command_ready_restarts, send_command_ready_returns, ?_⟩
  intro fuel cmd oracle flag r o ws h w hw
  rcases send_command_writes cmd fuel oracle flag [] r o ws h w hw with hmem | hmem
  · cases hmem
  · exact hmem

/-- C2 witness: the ready-with-no-fault part of
`claim2_ready_clears_flag_and_restarts_without_recalibration` applied to a
concrete bin-probe exchange. -/
theorem claim2_witness :
    send_command 1 "!f0200C" ["A", readyStatus] false []
      = some ("A", [], [] ++ ["!f0200C", statusProbeCmd]) :=
  claim2_ready_clears_flag_and_restarts_without_recalibration.2.1 0 "!f0200C" "A" [] []
    (by decide)

/-- C2 counterexample: a run in which a bay-door fault is flagged, the next
status probe answers ready (so the claimed recalibration would have to
happen here), and the command is then retried and succeeds — yet the write
trace contains only the command and the status probe: no recalibration
pick/place command (`!f12...`) is ever issued, so the Recalibration Routine
is invoked zero times, not once. -/
theorem claim2_counterexample :
    send_command 3 "!f0200C" ["A", bayDoorStatus, "B", readyStatus, "C", readyStatus] false []
      = some ("C", [], ["!f0200C", "!e1C", "!f0200C", "!e1C", "!f0200C", "!e1C"]) ∧
    (["!f0200C", "!e1C", "!f0200C", "!e1C", "!f0200C", "!e1C"].filter
        (fun w => pyStartsWith w "!f12")).length = 0 := by
  decide

/-! ## C10: `setup_bays` always raises `TypeError` -/

/-- C10: the bay-setup loop calls `recalibrate_bin(bin_num)` with a single
argument although the function's arity is two, so the very first loop
iteration raises `TypeError` — before any bin's recalibration runs — and
`setup_bays` as a whole never succeeds for any serial connection (it
either raises `TypeError` or blocks forever on the initial status
exchange). -/
theorem claim10_setup_bays_never_succeeds :
    (∀ (b : Nat) (bins : List Nat) (st : Robot),
      setup_bays_loop (b :: bins) st = .error .typeError) ∧
    (∀ st : Robot,
      setup_bays st = .error .typeError ∨ setup_bays st = .error .blocked) := by
  constructor
  · intro b bins st
    rfl
  · intro st
    cases hp : st.pending with
    | nil =>
      right
      simp [setup_bays, exchange, hp]
    | cons r rest =>
      left
      simp [setup_bays, exchange, hp, setup_bays_loop, pyArityCheck]

/-! ## C4: an unparseable offset crashes the drive worker -/

/-- C4: on the probe response `"+!f010abcd000C"` (offset slice `abcd`, not
a number) the parse failure is logged and `calculate_disc_count` yields
the string `"unknown"`, which `query_bin_inventory` passes through — but
the caller `load_disc_to_drive` then evaluates `"unknown" > 0`, which in
Python 3 raises `TypeError`, and `process_drive`'s `except Exception`
clause breaks the worker loop: the batch does **not** continue. -/
theorem claim4_parse_fault_stops_worker :
    calculate_disc_count "+!f010abcd000C" = PyVal.str "unknown" ∧
    query_bin_inventory 1 ⟨["+!f010abcd000C"], []⟩
      = .ok (PyVal.str "unknown", ⟨[], ["!f0200C"]⟩) ∧
    load_disc_to_drive 1 ⟨["+!f010abcd000C"], []⟩ = .error .typeError ∧
    (process_drive_step 1 ⟨["+!f010abcd000C"], []⟩ true []).1.1
      = IterOutcome.stopError .typeError :=
  ⟨by decide, rfl, rfl, by decide⟩

/-! ## C3: phase ordering, gating, and the swallowed imaging failure -/

/-- The phases started by the ddrescue loop form a consecutive range
beginning at the start index. -/
theorem runPhasesFrom_range :
    ∀ (exits : List Int) (i : Nat) (acc : List Nat),
      ∃ m, (runPhasesFrom i exits acc).1 = acc ++ List.range' i m := by
  intro exits
  induction exits with
  | nil => intro i acc; exact ⟨0, by simp [runPhasesFrom]⟩
  | cons e rest ih =>
    intro i acc
    by_cases he : e = 0
    · obtain ⟨m, hm⟩ := ih (i + 1) (acc ++ [i])
      refine ⟨m + 1, ?_⟩
      rw [show runPhasesFrom i (e :: rest) acc = runPhasesFrom (i + 1) rest (acc ++ [i]) from by
        simp [runPhasesFrom, he]]
      rw [hm, List.range'_succ, List.append_assoc]
      simp
    · exact ⟨1, by simp [runPhasesFrom, he, List.range'_one]⟩

/-- If the phase at position `k` of the exit oracle exits nonzero, the
phase numbered `i + k + 1` (the following one) is never started. -/
theorem runPhasesFrom_gating :
    ∀ (exits : List Int) (i : Nat) (acc : List Nat),
      (∀ x ∈ acc, x < i) →
      ∀ (k : Nat) (e : Int), exits.get? k = some e → e ≠ 0 →
        (i + k + 1) ∉ (runPhasesFrom i exits acc).1 := by
  intro exits
  induction exits with
  | nil => intro i acc _ k e hget; simp at hget
  | cons e0 rest ih =>
    intro i acc hacc k e hget hne
    match k, hget with
    | 0, hget =>
      have he0 : e0 = e := by simpa using hget
      subst he0
      rw [show runPhasesFrom i (e0 :: rest) acc = (acc ++ [i], true) from by
        simp [runPhasesFrom, hne]]
      intro hmem
      rcases List.mem_append.1 hmem with hmem | hmem
      · exact absurd (hacc _ hmem) (by omega)
      · simp at hmem
    | k + 1, hget =>
      simp only [List.get?_cons_succ] at hget
      by_cases he0 : e0 = 0
      · rw [show runPhasesFrom i (e0 :: rest) acc = runPhasesFrom (i + 1) rest (acc ++ [i]) from by
          simp [runPhasesFrom, he0]]
        have hacc' : ∀ x ∈ acc ++ [i], x < i + 1 := by
          intro x hx
          rcases List.mem_append.1 hx with hx | hx
          · exact Nat.lt_succ_of_lt (hacc x hx)
          · simp at hx; omega
        have := ih (i + 1) (acc ++ [i]) hacc' k e hget hne
        intro hmem
        exact this (by rw [show i + 1 + k + 1 = i + (k + 1) + 1 from by omega]; exact hmem)
      · rw [show runPhasesFrom i (e0 :: rest) acc = (acc ++ [i], true) from by
          simp [runPhasesFrom, he0]]
        intro hmem
        rcases List.mem_append.1 hmem with hmem | hmem
        · exact absurd (hacc _ hmem) (by omega)
        · simp at hmem; omega

/-- A nonzero exit anywhere makes the loop raise `CalledProcessError`
(recorded in the second component, since `read_dvd` catches it). -/
theorem runPhasesFrom_raises :
    ∀ (exits : List Int) (i : Nat) (acc : List Nat) (k : Nat) (e : Int),
      exits.get? k = some e → e ≠ 0 → (runPhasesFrom i exits acc).2 = true := by
  intro exits
  induction exits with
  | nil => intro i acc k e hget; simp at hget
  | cons e0 rest ih =>
    intro i acc k e hget hne
    match k, hget with
    | 0, hget =>
      have he0 : e0 = e := by simpa using hget
      subst he0
      simp [runPhasesFrom, hne]
    | k + 1, hget =>
      simp only [List.get?_cons_succ] at hget
      by_cases he0 : e0 = 0
      · rw [show runPhasesFrom i (e0 :: rest) acc = runPhasesFrom (i + 1) rest (acc ++ [i]) from by
          simp [runPhasesFrom, he0]]
        exact ih (i + 1) (acc ++ [i]) k e hget hne
      · simp [runPhasesFrom, he0]

/-- C3 (amended): the imaging phases always run in fixed consecutive order
starting at phase 1, and a nonzero exit of the phase at oracle position `k`
prevents phase `k + 2` (and the whole remainder) from starting and raises
the error — but `read_dvd` catches every exception internally, so after a
successful load the worker's iteration always goes on to execute the
unload step and its outcome is independent of the imaging exit codes:
an imaging failure does **not** terminate the worker loop. -/
theorem claim3_phases_ordered_failure_swallowed :
    (∀ exits : List Int, ∃ m, (read_dvd true exits).phasesRun = List.range' 1 m) ∧
    (∀ (exits : List Int) (k : Nat) (e : Int), exits.get? k = some e → e ≠ 0 →
      (k + 2) ∉ (read_dvd true exits).phasesRun ∧ (read_dvd true exits).errorLogged = true) ∧
    (∀ (driveNumber : Nat) (st st1 : Robot) (mediaPresent : Bool) (exits : List Int),
      load_disc_to_drive driveNumber st = .ok (true, st1) →
      WorkerAction.unloadStep ∈ (process_drive_step driveNumber st mediaPresent exits).1.2 ∧
      (process_drive_step driveNumber st mediaPresent exits).1.1
        = (process_drive_step driveNumber st true []).1.1) := by
  refine ⟨?_, ?_, ?_⟩
  · intro exits
    simpa [read_dvd] using runPhasesFrom_range exits 1 []
  · intro exits k e hget hne
    constructor
    · have := runPhasesFrom_gating exits 1 [] (by simp) k e hget hne
      simpa [read_dvd, show 1 + k + 1 = k + 2 from by omega] using this
    · simpa [read_dvd] using runPhasesFrom_raises exits 1 [] k e hget hne
  · intro driveNumber st st1 mediaPresent exits hload
    unfold process_drive_step
    rw [hload]
    rcases hu : unload_disc_to_bin driveNumber st1 with e | ⟨b, st2⟩
    · cases e <;> simp [hu]
    · cases b <;> simp [hu]

/-- C3 witness: the third conjunct of
`claim3_phases_ordered_failure_swallowed` at a concrete successful load
and the failing exit-code list `[1, 0, 0]`. -/
theorem claim3_witness :
    WorkerAction.unloadStep ∈
      (process_drive_step 1 ⟨["+!f0102340000C", "+!f11C", "x", "y"], []⟩ true [1, 0, 0]).1.2 ∧
    (process_drive_step 1 ⟨["+!f0102340000C", "+!f11C", "x", "y"], []⟩ true [1, 0, 0]).1.1
      = (process_drive_step 1 ⟨["+!f0102340000C", "+!f11C", "x", "y"], []⟩ true []).1.1 :=
  claim3_phases_ordered_failure_swallowed.2.2 1
    ⟨["+!f0102340000C", "+!f11C", "x", "y"], []⟩
    ⟨[], ["!f0200C", "!f12002C", "!f12410C", "!f12411C"]⟩ true [1, 0, 0] rfl

/-- C3 counterexample: with exit codes `[1, 0, 0]` phase 1 fails, phases 2
and 3 are skipped and the error is logged — yet the worker iteration ends
in `continued` (it unloads the disc and the loop repeats), not in a fatal
stop, contradicting the claim that the nonzero exit terminates the
worker's load/image/unload loop. -/
theorem claim3_counterexample :
    (read_dvd true [1, 0, 0]).phasesRun = [1] ∧
    (read_dvd true [1, 0, 0]).errorLogged = true ∧
    (process_drive_step 1
        ⟨["+!f0102340000C", "+!f11C", "x", "y", "+!f0102400000C", "x", "y", "z"], []⟩
        true [1, 0, 0]).1.1 = IterOutcome.continued := by
  refine ⟨by decide, by decide, ?_⟩
  rfl

/-! ## C6: one recalibration, one re-probe, no loop -/

/-- C6: when the first probe response for a bin contains the error
sentinel, a completing `query_bin_inventory` issues exactly the command
sequence probe, recalibration pick (optionally followed by the put-back
place), probe — one recalibration call, one re-probe, and never any
further recalibrate/re-probe round, regardless of what the re-probe
returns. -/
theorem claim6_single_recalibration_and_reprobe :
    ∀ (binNum : Nat) (st : Robot) (r : String) (rest : List String) (v : PyVal) (stf : Robot),
      st.pending = r :: rest →
      pyIn "+!f01365534C" r = true →
      query_bin_inventory binNum st = .ok (v, stf) →
      stf.sent = st.sent ++ [binProbeCmd binNum, binPickCmd binNum, binProbeCmd binNum] ∨
      stf.sent = st.sent
        ++ [binProbeCmd binNum, binPickCmd binNum, binPlaceCmd binNum, binProbeCmd binNum] := by
  intro binNum st r rest v stf hpend herr hq
  unfold query_bin_inventory exchange at hq
  rw [hpend] at hq
  simp only [herr, if_true] at hq
  unfold recalibrate_bin exchange at hq
  cases rest with
  | nil => cases hq
  | cons pickResp rest2 =>
    simp only at hq
    by_cases hpick : pyIn "+!f11C" pickResp = true
    · -- a disc was picked up: it is placed back, then the re-probe
      simp only [hpick, if_true] at hq
      cases rest2 with
      | nil => cases hq
      | cons placeResp rest3 =>
        simp only at hq
        cases rest3 with
        | nil => cases hq
        | cons reprobeResp rest4 =>
          simp only at hq
          right
          split at hq <;> cases hq <;> simp
    · -- empty bin or unexpected pick response: no place, straight to re-probe
      simp only [hpick, if_false, Bool.not_eq_true] at hq
      rw [if_neg (by simp [hpick])] at hq
      by_cases hempty : pyIn "+!f10C" pickResp = true
      · rw [if_pos hempty] at hq
        cases rest2 with
        | nil => cases hq
        | cons reprobeResp rest3 =>
          simp only at hq
          left
          split at hq <;> cases hq <;> simp
      · rw [if_neg hempty] at hq
        cases rest2 with
        | nil => cases hq
        | cons reprobeResp rest3 =>
          simp only at hq
          left
          split at hq <;> cases hq <;> simp

/-- C6 witness: `claim6_single_recalibration_and_reprobe` on a concrete
error-sentinel probe, an empty-bin pick response, and a normal re-probe:
the command trace is probe, pick, probe. -/
theorem claim6_witness :
    (⟨[], ["!f0200C", "!f12002C", "!f0200C"]⟩ : Robot).sent
        = [] ++ [binProbeCmd 1, binPickCmd 1, binProbeCmd 1] ∨
    (⟨[], ["!f0200C", "!f12002C", "!f0200C"]⟩ : Robot).sent
        = [] ++ [binProbeCmd 1, binPickCmd 1, binPlaceCmd 1, binProbeCmd 1] :=
  claim6_single_recalibration_and_reprobe 1
    ⟨["+!f01365534C", "+!f10C", "+!f0102304000C"], []⟩
    "+!f01365534C" ["+!f10C", "+!f0102304000C"] (.int 108)
    ⟨[], ["!f0200C", "!f12002C", "!f0200C"]⟩ rfl (by decide) rfl

/-! ## C7: when the pick-from-bin step reports failure -/

/-- C7 (amended): once the scan has selected input bin 1 (positive count),
`load_disc_to_drive` returns `False` **iff the no-disc code `"+!f10C"` is
contained in the pick response** — the pick-acknowledgement code `"+!f11C"`
is not consulted for this decision (a response containing both codes still
returns `False`); and on a response containing neither code the step never
returns `False` and proceeds as success. -/
theorem claim7_pick_failure_iff_no_disc_code :
    ∀ (driveNumber : Nat) (st st1 st2 : Robot) (n1 : Int) (g : String),
      query_bin_inventory 1 st = .ok (.int n1, st1) →
      0 < n1 →
      exchange (binPickCmd 1) st1 = .ok (g, st2) →
      ((∃ stf, load_disc_to_drive driveNumber st = .ok (false, stf)) ↔
        pyIn "+!f10C" g = true) := by
  intro driveNumber st st1 st2 n1 g hq hpos hex
  have hscan : scanInputBins INPUT_BINS st = .ok (some 1, st1) := by
    simp only [INPUT_BINS, scanInputBins, hq, pyGtZero, decide_eq_true hpos]
  have hload : load_disc_to_drive driveNumber st
      = if pyIn "+!f10C" g then .ok (false, st2)
        else
          match exchange (moveToDriveCmd driveNumber) st2 with
          | .error e => .error e
          | .ok (_, st3) =>
            match exchange (drivePlaceCmd driveNumber) st3 with
            | .error e => .error e
            | .ok (_, st4) => .ok (true, st4) := by
    unfold load_disc_to_drive
    rw [hscan]
    dsimp only
    rw [show pyFalsy (some 1) = false from rfl]
    simp only [Bool.false_eq_true, if_false]
    rw [hex]
  constructor
  · rintro ⟨stf, hfalse⟩
    rw [hload] at hfalse
    by_cases hg : pyIn "+!f10C" g = true
    · exact hg
    · exfalso
      rw [if_neg (by simp [hg])] at hfalse
      rcases h3 : exchange (moveToDriveCmd driveNumber) st2 with e | ⟨r3, st3⟩ <;>
        rw [h3] at hfalse <;> dsimp only at hfalse
      · cases hfalse
      · rcases h4 : exchange (drivePlaceCmd driveNumber) st3 with e | ⟨r4, st4⟩ <;>
          rw [h4] at hfalse <;> simp at hfalse
  · intro hg
    exact ⟨st2, by rw [hload, if_pos hg]⟩

/-- C7 witness: `claim7_pick_failure_iff_no_disc_code` on a concrete
pick exchange whose response is exactly the no-disc code. -/
theorem claim7_witness :
    (∃ stf, load_disc_to_drive 1 ⟨["+!f0102340000C", "+!f10C"], []⟩ = .ok (false, stf)) ↔
      pyIn "+!f10C" "+!f10C" = true :=
  claim7_pick_failure_iff_no_disc_code 1 ⟨["+!f0102340000C", "+!f10C"], []⟩
    ⟨["+!f10C"], ["!f0200C"]⟩ ⟨[], ["!f0200C", "!f12002C"]⟩ 105 "+!f10C" rfl
    (by decide) rfl

/-- C7 counterexample: a pick response containing **both** the
pick-acknowledgement code `"+!f11C"` and the no-disc code `"+!f10C"`.
The claim says the step must not return `False` (the acknowledgement is
present), but the source tests the no-disc code first and returns
`False`. -/
theorem claim7_counterexample :
    pyIn "+!f11C" "+!f11C +!f10C" = true ∧
    load_disc_to_drive 1 ⟨["+!f0102340000C", "+!f11C +!f10C"], []⟩
      = .ok (false, ⟨[], ["!f0200C", "!f12002C"]⟩) :=
  ⟨by decide, rfl⟩

/-! ## C5: exhaustion conditions of the load and unload steps -/

/-- Integer counts delivered by `query_bin_inventory` never exceed the bin
capacity. -/
theorem query_count_le {b : Nat} {st : Robot} {n : Int} {stf : Robot}
    (h : query_bin_inventory b st = .ok (.int n, stf)) : n ≤ BIN_CAPACITY := by
  have final : ∀ (r : String) (st' : Robot),
      (if pyIn "+!f01036000C" r = true
        then (Except.ok ((PyVal.int 0), st') : Except PyErr (PyVal × Robot))
        else Except.ok (calculate_disc_count r, st')) = Except.ok (PyVal.int n, stf) →
      n ≤ BIN_CAPACITY := by
    intro r st' hfin
    by_cases hemp : pyIn "+!f01036000C" r = true
    · rw [if_pos hemp] at hfin
      simp only [Except.ok.injEq, Prod.mk.injEq] at hfin
      have h0 : PyVal.int 0 = PyVal.int n := hfin.1
      simp only [PyVal.int.injEq] at h0
      norm_num [BIN_CAPACITY]
      omega
    · rw [if_neg hemp] at hfin
      simp only [Except.ok.injEq, Prod.mk.injEq] at hfin
      exact calc_count_le_capacity hfin.1
  unfold query_bin_inventory at h
  rcases h1 : exchange (binProbeCmd b) st with e | ⟨r, st1⟩ <;> rw [h1] at h <;> dsimp only at h
  · cases h
  · by_cases herr : pyIn "+!f01365534C" r = true
    · rw [if_pos herr] at h
      rcases h2 : recalibrate_bin b st1 with e | st2 <;> rw [h2] at h <;> dsimp only at h
      · cases h
      · rcases h3 : exchange (binProbeCmd b) st2 with e | ⟨r2, st3⟩ <;> rw [h3] at h <;>
          dsimp only at h
        · cases h
        · exact final r2 st3 h
    · rw [if_neg herr] at h
      dsimp only at h
      exact final r st1 h

/-- Characterization of an empty-handed input scan: `scanInputBins [1, 2]`
returns `none` exactly when both bins' inventories compare `> 0` as false. -/
theorem scanInput_pair_none_iff (st stf : Robot) :
    scanInputBins INPUT_BINS st = .ok (none, stf) ↔
      ∃ n1 st1 n2, query_bin_inventory 1 st = .ok (.int n1, st1) ∧ ¬ (0 : Int) < n1 ∧
        query_bin_inventory 2 st1 = .ok (.int n2, stf) ∧ ¬ (0 : Int) < n2 := by
  constructor
  · intro h
    simp only [INPUT_BINS, scanInputBins] at h
    rcases hq1 : query_bin_inventory 1 st with e | ⟨v1, st1⟩ <;> rw [hq1] at h <;> dsimp only at h
    · cases h
    · cases v1 with
      | str s => dsimp only [pyGtZero] at h; cases h
      | int n1 =>
        dsimp only [pyGtZero] at h
        by_cases hp1 : (0 : Int) < n1
        · rw [decide_eq_true hp1] at h
          dsimp only at h
          cases h
        · rw [decide_eq_false hp1] at h
          dsimp only at h
          rcases hq2 : query_bin_inventory 2 st1 with e | ⟨v2, st2⟩ <;> rw [hq2] at h <;>
            dsimp only at h
          · cases h
          · cases v2 with
            | str s => dsimp only [pyGtZero] at h; cases h
            | int n2 =>
              dsimp only [pyGtZero] at h
              by_cases hp2 : (0 : Int) < n2
              · rw [decide_eq_true hp2] at h
                dsimp only at h
                cases h
              · rw [decide_eq_false hp2] at h
                dsimp only at h
                simp only [Except.ok.injEq, Prod.mk.injEq] at h
                exact ⟨n1, st1, n2, rfl, hp1, by rw [← h.2]; exact hq2, hp2⟩
  · rintro ⟨n1, st1, n2, hq1, hn1, hq2, hn2⟩
    simp only [INPUT_BINS, scanInputBins, hq1, hq2, pyGtZero,
      decide_eq_false hn1, decide_eq_false hn2]

/-- Characterization of a successful input scan: the selected bin is bin 1
(positive count) or bin 2 (bin 1 non-positive, bin 2 positive). -/
theorem scanInput_pair_some_iff (st stf : Robot) (b : Nat) :
    scanInputBins INPUT_BINS st = .ok (some b, stf) ↔
      (b = 1 ∧ ∃ n1, query_bin_inventory 1 st = .ok (.int n1, stf) ∧ (0 : Int) < n1) ∨
      (b = 2 ∧ ∃ n1 st1 n2, query_bin_inventory 1 st = .ok (.int n1, st1) ∧ ¬ (0 : Int) < n1 ∧
        query_bin_inventory 2 st1 = .ok (.int n2, stf) ∧ (0 : Int) < n2) := by
  constructor
  · intro h
    simp only [INPUT_BINS, scanInputBins] at h
    rcases hq1 : query_bin_inventory 1 st with e | ⟨v1, st1⟩ <;> rw [hq1] at h <;> dsimp only at h
    · cases h
    · cases v1 with
      | str s => dsimp only [pyGtZero] at h; cases h
      | int n1 =>
        dsimp only [pyGtZero] at h
        by_cases hp1 : (0 : Int) < n1
        · rw [decide_eq_true hp1] at h
          dsimp only at h
          simp only [Except.ok.injEq, Prod.mk.injEq, Option.some.injEq] at h
          exact Or.inl ⟨h.1.symm, n1, by rw [← h.2], hp1⟩
        · rw [decide_eq_false hp1] at h
          dsimp only at h
          rcases hq2 : query_bin_inventory 2 st1 with e | ⟨v2, st2⟩ <;> rw [hq2] at h <;>
            dsimp only at h
          · cases h
          · cases v2 with
            | str s => dsimp only [pyGtZero] at h; cases h
            | int n2 =>
              dsimp only [pyGtZero] at h
              by_cases hp2 : (0 : Int) < n2
              · rw [decide_eq_true hp2] at h
                dsimp only at h
                simp only [Except.ok.injEq, Prod.mk.injEq, Option.some.injEq] at h
                exact Or.inr ⟨h.1.symm, n1, st1, n2, rfl, hp1, by rw [← h.2]; exact hq2, hp2⟩
              · rw [decide_eq_false hp2] at h
                dsimp only at h
                cases h
  · rintro (⟨hb, n1, hq1, hp1⟩ | ⟨hb, n1, st1, n2, hq1, hn1, hq2, hp2⟩) <;> subst hb
    · simp only [INPUT_BINS, scanInputBins, hq1, pyGtZero, decide_eq_true hp1]
    · simp only [INPUT_BINS, scanInputBins, hq1, hq2, pyGtZero,
        decide_eq_false hn1, decide_eq_true hp2]

/-- Characterization of a full output scan: `scanOutputBins [3, 4]`
returns `none` exactly when both bins' inventories compare
`< BIN_CAPACITY` as false. -/
theorem scanOutput_pair_none_iff (st stf : Robot) :
    scanOutputBins OUTPUT_BINS st = .ok (none, stf) ↔
      ∃ n3 st3 n4, query_bin_inventory 3 st = .ok (.int n3, st3) ∧ ¬ n3 < BIN_CAPACITY ∧
        query_bin_inventory 4 st3 = .ok (.int n4, stf) ∧ ¬ n4 < BIN_CAPACITY := by
  constructor
  · intro h
    simp only [OUTPUT_BINS, scanOutputBins] at h
    rcases hq3 : query_bin_inventory 3 st with e | ⟨v3, st3⟩ <;> rw [hq3] at h <;> dsimp only at h
    · cases h
    · cases v3 with
      | str s => dsimp only [pyLtCapacity] at h; cases h
      | int n3 =>
        dsimp only [pyLtCapacity] at h
        by_cases hp3 : n3 < BIN_CAPACITY
        · rw [decide_eq_true hp3] at h
          dsimp only at h
          cases h
        · rw [decide_eq_false hp3] at h
          dsimp only at h
          rcases hq4 : query_bin_inventory 4 st3 with e | ⟨v4, st4⟩ <;> rw [hq4] at h <;>
            dsimp only at h
          · cases h
          · cases v4 with
            | str s => dsimp only [pyLtCapacity] at h; cases h
            | int n4 =>
              dsimp only [pyLtCapacity] at h
              by_cases hp4 : n4 < BIN_CAPACITY
              · rw [decide_eq_true hp4] at h
                dsimp only at h
                cases h
              · rw [decide_eq_false hp4] at h
                dsimp only at h
                simp only [Except.ok.injEq, Prod.mk.injEq] at h
                exact ⟨n3, st3, n4, rfl, hp3, by rw [← h.2]; exact hq4, hp4⟩
  · rintro ⟨n3, st3, n4, hq3, hn3, hq4, hn4⟩
    simp only [OUTPUT_BINS, scanOutputBins, hq3, hq4, pyLtCapacity,
      decide_eq_false hn3, decide_eq_false hn4]

/-- C5 (amended): the unload step returns the no-disc-unloaded result iff
**both** configured output bins report count exactly `BIN_CAPACITY` on the
same scan pass (as claimed); but the load step returns the no-disc-loaded
result iff either every configured input bin reports a count `≤ 0` on the
same scan pass (not only `= 0`: negative counts exist, see C1), **or** the
scan selects a bin with positive count and the subsequent pick response
contains the no-disc code `"+!f10C"` — an additional `False` path the
original claim omits. -/
theorem claim5_worker_exhaustion_iff :
    ∀ (driveNumber : Nat) (st stf : Robot),
      (load_disc_to_drive driveNumber st = .ok (false, stf) ↔
        (∃ n1 st1 n2, query_bin_inventory 1 st = .ok (.int n1, st1) ∧ n1 ≤ 0 ∧
          query_bin_inventory 2 st1 = .ok (.int n2, stf) ∧ n2 ≤ 0) ∨
        (∃ n1 st1 g, query_bin_inventory 1 st = .ok (.int n1, st1) ∧ 0 < n1 ∧
          exchange (binPickCmd 1) st1 = .ok (g, stf) ∧ pyIn "+!f10C" g = true) ∨
        (∃ n1 st1 n2 st2 g, query_bin_inventory 1 st = .ok (.int n1, st1) ∧ n1 ≤ 0 ∧
          query_bin_inventory 2 st1 = .ok (.int n2, st2) ∧ 0 < n2 ∧
          exchange (binPickCmd 2) st2 = .ok (g, stf) ∧ pyIn "+!f10C" g = true)) ∧
      (unload_disc_to_bin driveNumber st = .ok (false, stf) ↔
        (∃ st3, query_bin_inventory 3 st = .ok (.int BIN_CAPACITY, st3) ∧
          query_bin_inventory 4 st3 = .ok (.int BIN_CAPACITY, stf))) := by
  intro driveNumber st stf
  constructor
  · -- the load step
    constructor
    · intro h
      unfold load_disc_to_drive at h
      rcases hscan : scanInputBins INPUT_BINS st with e | ⟨ib, st'⟩ <;> rw [hscan] at h <;>
        dsimp only at h
      · cases h
      · cases ib with
        | none =>
          rw [show pyFalsy none = true from rfl, if_pos rfl] at h
          simp only [Except.ok.injEq, Prod.mk.injEq] at h
          rw [h.2] at hscan
          obtain ⟨n1, st1, n2, hq1, hn1, hq2, hn2⟩ := (scanInput_pair_none_iff st stf).1 hscan
          exact Or.inl ⟨n1, st1, n2, hq1, not_lt.1 hn1, hq2, not_lt.1 hn2⟩
        | some b =>
          rcases (scanInput_pair_some_iff st st' b).1 hscan with
            ⟨hb, n1, hq1, hp1⟩ | ⟨hb, n1, st1, n2, hq1, hn1, hq2, hp2⟩ <;> subst hb
          · rw [show pyFalsy (some 1) = false from rfl] at h
            simp only [Bool.false_eq_true, if_false] at h
            rcases hpick : exchange (binPickCmd 1) st' with e | ⟨g, st2⟩ <;> rw [hpick] at h <;>
              dsimp only at h
            · cases h
            · by_cases hg : pyIn "+!f10C" g = true
              · rw [if_pos hg] at h
                simp only [Except.ok.injEq, Prod.mk.injEq] at h
                exact Or.inr (Or.inl ⟨n1, st', g, hq1, hp1, by rw [← h.2]; exact hpick, hg⟩)
              · exfalso
                rw [if_neg (by simp [hg])] at h
                rcases h3 : exchange (moveToDriveCmd driveNumber) st2 with e | ⟨r3, st3⟩ <;>
                  rw [h3] at h <;> dsimp only at h
                · cases h
                · rcases h4 : exchange (drivePlaceCmd driveNumber) st3 with e | ⟨r4, st4⟩ <;>
                    rw [h4] at h <;> simp at h
          · rw [show pyFalsy (some 2) = false from rfl] at h
            simp only [Bool.false_eq_true, if_false] at h
            rcases hpick : exchange (binPickCmd 2) st' with e | ⟨g, st2⟩ <;> rw [hpick] at h <;>
              dsimp only at h
            · cases h
            · by_cases hg : pyIn "+!f10C" g = true
              · rw [if_pos hg] at h
                simp only [Except.ok.injEq, Prod.mk.injEq] at h
                exact Or.inr (Or.inr ⟨n1, st1, n2, st', g, hq1, not_lt.1 hn1, hq2, hp2,
                  by rw [← h.2]; exact hpick, hg⟩)
              · exfalso
                rw [if_neg (by simp [hg])] at h
                rcases h3 : exchange (moveToDriveCmd driveNumber) st2 with e | ⟨r3, st3⟩ <;>
                  rw [h3] at h <;> dsimp only at h
                · cases h
                · rcases h4 : exchange (drivePlaceCmd driveNumber) st3 with e | ⟨r4, st4⟩ <;>
                    rw [h4] at h <;> simp at h
    · rintro (⟨n1, st1, n2, hq1, hn1, hq2, hn2⟩ | ⟨n1, st1, g, hq1, hp1, hpick, hg⟩ |
        ⟨n1, st1, n2, st2, g, hq1, hn1, hq2, hp2, hpick, hg⟩)
      · have hscan := (scanInput_pair_none_iff st stf).2
          ⟨n1, st1, n2, hq1, not_lt.2 hn1, hq2, not_lt.2 hn2⟩
        unfold load_disc_to_drive
        rw [hscan]
        rfl
      · have hscan := (scanInput_pair_some_iff st st1 1).2 (Or.inl ⟨rfl, n1, hq1, hp1⟩)
        unfold load_disc_to_drive
        rw [hscan]
        dsimp only
        rw [show pyFalsy (some 1) = false from rfl]
        simp only [Bool.false_eq_true, if_false]
        rw [hpick]
        dsimp only
        rw [if_pos hg]
      · have hscan := (scanInput_pair_some_iff st st2 2).2
          (Or.inr ⟨rfl, n1, st1, n2, hq1, not_lt.2 hn1, hq2, hp2⟩)
        unfold load_disc_to_drive
        rw [hscan]
        dsimp only
        rw [show pyFalsy (some 2) = false from rfl]
        simp only [Bool.false_eq_true, if_false]
        rw [hpick]
        dsimp only
        rw [if_pos hg]
  · -- the unload step
    constructor
    · intro h
      unfold unload_disc_to_bin at h
      rcases hscan : scanOutputBins OUTPUT_BINS st with e | ⟨tb, st'⟩ <;> rw [hscan] at h <;>
        dsimp only at h
      · cases h
      · cases tb with
        | none =>
          simp only [Except.ok.injEq, Prod.mk.injEq] at h
          rw [h.2] at hscan
          obtain ⟨n3, st3, n4, hq3, hn3, hq4, hn4⟩ := (scanOutput_pair_none_iff st stf).1 hscan
          have e3 : n3 = BIN_CAPACITY := le_antisymm (query_count_le hq3) (not_lt.1 hn3)
          have e4 : n4 = BIN_CAPACITY := le_antisymm (query_count_le hq4) (not_lt.1 hn4)
          exact ⟨st3, by rw [← e3]; exact hq3, by rw [← e4]; exact hq4⟩
        | some b =>
          exfalso
          rcases h2 : exchange (moveToDriveCmd driveNumber) st' with e | ⟨r2, st2⟩ <;>
            rw [h2] at h <;> dsimp only at h
          · cases h
          · rcases h3 : exchange (drivePickCmd driveNumber) st2 with e | ⟨r3, st3⟩ <;>
              rw [h3] at h <;> dsimp only at h
            · cases h
            · rcases h4 : exchange (binPlaceCmd b) st3 with e | ⟨r4, st4⟩ <;>
                rw [h4] at h <;> simp at h
    · rintro ⟨st3, hq3, hq4⟩
      have hscan := (scanOutput_pair_none_iff st stf).2
        ⟨BIN_CAPACITY, st3, BIN_CAPACITY, hq3, lt_irrefl _, hq4, lt_irrefl _⟩
      unfold unload_disc_to_bin
      rw [hscan]

/-- C5 counterexample: input bin 1 reports count 105 (not 0), the pick
response carries the no-disc code, and `load_disc_to_drive` nevertheless
returns the no-disc-loaded result — refuting the claimed equivalence with
"every configured input bin reports count 0". -/
theorem claim5_counterexample :
    query_bin_inventory 1 ⟨["+!f0102340000C", "+!f10C"], []⟩
      = .ok (PyVal.int 105, ⟨["+!f10C"], ["!f0200C"]⟩) ∧
    load_disc_to_drive 1 ⟨["+!f0102340000C", "+!f10C"], []⟩
      = .ok (false, ⟨[], ["!f0200C", "!f12002C"]⟩) ∧
    (105 : Int) ≠ 0 :=
  ⟨rfl, rfl, by decide⟩

/-! ## C9: mutual exclusion of the robot exchanges -/

/-- C9: with every worker running the `process_drive` program (robot
exchanges only inside `with lock:` blocks), any scheduler interleaving
keeps the robot exchanges of different workers separated by a lock
release: there is never more than one in-flight exchange, and request /
response pairs of distinct workers cannot interleave. -/
theorem claim9_robot_exchanges_never_interleave :
    ∀ {n : Nat} (plan : Fin n → List (List String × List String))
      {tr : List (Fin n × RAct)} {cf : RConfig n},
      RExec ⟨fun i => workerProgram (plan i), none⟩ tr cf →
      ∀ {p q : Nat} {i j : Fin n} {cp cq : String},
        p < q → tr.get? p = some (i, RAct.robotOp cp) →
        tr.get? q = some (j, RAct.robotOp cq) → j ≠ i →
        ∃ k, p < k ∧ k < q ∧ tr.get? k = some (i, RAct.release) := by
  intro n plan tr cf hex p q i j cp cq hpq hp hq hij
  have hinv : LockInv (⟨fun i => workerProgram (plan i), none⟩ : RConfig n) := by
    intro w
    have hfalse : decide ((⟨fun i => workerProgram (plan i), none⟩ : RConfig n).owner = some w)
        = false := by simp
    rw [hfalse]
    exact wellLocked_workerProgram (plan w)
  exact robot_ops_separated hex hinv hpq hp hq hij

/-- C9 witness: `claim9_robot_exchanges_never_interleave` on a concrete
two-worker execution in which worker 0 runs its full iteration and then
worker 1 does; the separating release of worker 0 is found between the
two robot exchanges. -/
theorem claim9_witness :
    ∃ k, 1 < k ∧ k < 7 ∧ demoTrace.get? k = some ((0 : Fin 2), RAct.release) := by
  have hex : ∃ cf, RExec
      (⟨fun i => workerProgram ((fun _ => [(["a"], [])]) i), none⟩ : RConfig 2)
      demoTrace cf := by
    apply Exists.intro
    apply RExec.cons (RStep.acquire _ 0 _ rfl rfl)
    apply RExec.cons (RStep.robot _ 0 "a" _ rfl)
    apply RExec.cons (RStep.release _ 0 _ rfl rfl)
    apply RExec.cons (RStep.localStep _ 0 _ rfl)
    apply RExec.cons (RStep.acquire _ 0 _ rfl rfl)
    apply RExec.cons (RStep.release _ 0 _ rfl rfl)
    apply RExec.cons (RStep.acquire _ 1 _ rfl rfl)
    apply RExec.cons (RStep.robot _ 1 "a" _ rfl)
    apply RExec.cons (RStep.release _ 1 _ rfl rfl)
    apply RExec.cons (RStep.localStep _ 1 _ rfl)
    apply RExec.cons (RStep.acquire _ 1 _ rfl rfl)
    apply RExec.cons (RStep.release _ 1 _ rfl rfl)
    exact RExec.nil _
  obtain ⟨cf, hex⟩ := hex
  exact claim9_robot_exchanges_never_interleave (fun _ => [(["a"], [])]) hex
    (by omega) rfl rfl (by decide)
